import Mathlib

/-!
Verification development for the `image-builder` build-cache orchestrator.

The Python sources are shallowly embedded: pure computations become Lean
functions, the filesystem / registry / external manifest parser become
oracle fields of a `World` record, exceptions become `Except`, a bare
Python `return` (returning `None`) becomes `Option.none`, and every
external process invocation or HTTP request is recorded in an `Action`
trace.  The SHA-256 hasher is modelled by the exact byte stream absorbed
into it (`List Nat`); two digests are equal iff the absorbed streams are
equal, which is the abstraction every theorem below relies on.
-/

namespace ImageBuilder

/-- Model of Python `str.encode()`: the byte sequence of a string
(abstracted as the sequence of character codes). -/
def strBytes (s : String) : List Nat :=
  s.toList.map Char.toNat

/-- Model of `hashlib.sha256(...).hexdigest()`: a deterministic rendering
of the absorbed byte stream.  Only `stream₁ = stream₂ → hashHex stream₁ =
hashHex stream₂` is ever used, which is true of the real SHA-256. -/
def hashHex (l : List Nat) : String :=
  String.intercalate "." (l.map toString)

/-- Python `str.split(sep)` on the character list (splitting at every
occurrence, keeping empty pieces). -/
def pySplitChar (c : Char) : List Char → List (List Char)
  | [] => [[]]
  | x :: xs =>
    if x = c then [] :: pySplitChar c xs
    else
      match pySplitChar c xs with
      | [] => [[x]]
      | g :: gs => (x :: g) :: gs

/-- Python `s.split(c)` (single-character separator). -/
def pySplitOn (s : String) (c : Char) : List String :=
  (pySplitChar c s.toList).map List.asString

/-- Python `c in s`. -/
def pyContains (s : String) (c : Char) : Bool :=
  s.toList.contains c

/-- Python `s.startswith(pre)`. -/
def pyStartsWith (s pre : String) : Bool :=
  pre.toList.isPrefixOf s.toList

/-- Python `s.rstrip()`. -/
def pyRstrip (s : String) : String :=
  ((s.toList.reverse.dropWhile Char.isWhitespace).reverse).asString

/-- Python `s[n:]`. -/
def pyDropLeft (s : String) (n : Nat) : String :=
  (s.toList.drop n).asString

/-- The block-reading loop of `update_file_hash` (cli.py:121-125),
with an explicit iteration bound (each round consumes at least one byte,
so `content.length` rounds always suffice):
`buf = f.read(bs); while len(buf) > 0: hasher.update(buf); buf = f.read(bs)`.
Reading with block size `0` returns an empty buffer at once, so the loop
never runs. -/
def readChunksFuel (bs : Nat) : Nat → List Nat → List (List Nat)
  | 0, _ => []
  | fuel + 1, content =>
    if bs = 0 ∨ content = [] then []
    else content.take bs :: readChunksFuel bs fuel (content.drop bs)

/-- The chunks read from a file's content at block size `bs`. -/
def readChunks (bs : Nat) (content : List Nat) : List (List Nat) :=
  readChunksFuel bs content.length content

/-- Python `sorted` on a list of path strings. -/
def sortStr (l : List String) : List String :=
  l.insertionSort (· ≤ ·)

/-- The external commands the orchestrator shells out to
(`docker pull/tag/push/build`). -/
inductive DockerCmd where
  | pull (ref : String)
  | tag (src dst : String)
  | push (ref : String)
  | build (path file taggedRef : String)
deriving DecidableEq, Repr

/-- Observable events: `attempt c` is the call into `_call` (always made),
`contact c` is the actual subprocess spawn (skipped under `DRY_RUN`),
`http ref` is the registry HEAD request of `get_image_digest`. -/
inductive Action where
  | attempt (c : DockerCmd)
  | contact (c : DockerCmd)
  | http (ref : String)
deriving DecidableEq, Repr

/-- Parsed build manifest, the boundary of the external `dockerfile_parse`
library: ordered FROM references, COPY/ADD first tokens (stage-local
only), and the raw ARG instruction values. -/
structure Manifest where
  parentImages : List String
  copiedSrcs : List String
  addedSrcs : List String
  argValues : List String

/-- One top-level invocation's fixed environment: configuration, CLI
request, filesystem snapshot and external-world oracles. -/
structure World where
  /-- `config.DOCKER_REGISTRY` -/
  dockerRegistry : String
  /-- `args.dry_run` / the `DRY_RUN` env var read in `process._call` -/
  dryRun : Bool
  /-- `config.READ_FILE_BLOCKSIZE` (default 65536) -/
  blocksize : Nat
  /-- `args.path`, the build context passed to `docker build` -/
  buildPath : String
  /-- `args.extra_tag` -/
  extraTags : List String
  /-- `args.extra_name` -/
  extraNames : List String
  /-- `os.path.isfile` -/
  isFile : String → Bool
  /-- `os.path.isdir` -/
  isDir : String → Bool
  /-- byte content of a file -/
  content : String → List Nat
  /-- `glob.glob(pattern)` (non-recursive, cli.py:131) -/
  glob : String → List String
  /-- `glob.glob(pattern, recursive=True)` -/
  globRec : String → List String
  /-- lines of the `.dockerignore` file under a context directory
  (`none` = missing file) -/
  dockerignoreLines : String → Option (List String)
  /-- `enter_build_context`: the build-context directory of an image -/
  buildContext : String → String
  /-- `locate_dockerfile` -/
  dockerfilePath : String → String
  /-- the external parser: manifest structure at a dockerfile path -/
  manifest : String → Manifest
  /-- exit status of an external command (`returncode == 0`) -/
  cmdOk : DockerCmd → Bool
  /-- `get_image_digest`: the `docker-content-digest` header, `""` if absent -/
  digestOf : String → String

/-- `process._call` (process.py:46-76): under `DRY_RUN` return success
without spawning; otherwise spawn and report the exit status. -/
def runDocker (w : World) (c : DockerCmd) : Bool × List Action :=
  if w.dryRun then (true, [Action.attempt c])
  else (w.cmdOk c, [Action.attempt c, Action.contact c])

/-- `get_image_digest` (docker.py:118-127): an HTTP HEAD request, made
even in dry-run mode. -/
def getImageDigest (w : World) (ref : String) : String × List Action :=
  (w.digestOf ref, [Action.http ref])

/-- The guarded existence check
`not args.dry_run and docker_silent.pull(ref).returncode == 0`
(cli.py:56-58 and 152-154): in dry-run the conjunction short-circuits and
the pull is never invoked. -/
def pullCheck (w : World) (ref : String) : Bool × List Action :=
  if w.dryRun then (false, []) else runDocker w (DockerCmd.pull ref)

/-- `_glob` inside `parse_dockerignore` (docker.py:172-180): expand a
pattern, recursing into each matched directory via `glob(f"{f}/**")`. -/
def pdGlob (w : World) (pattern : String) : List String :=
  ((w.globRec pattern).map
    (fun f => if w.isDir f then w.globRec (f ++ "/**") else [f])).flatten

/-- One line of the `parse_dockerignore` loop (docker.py:184-190).
Note the source updates with `_glob(line)` even for `!`-negated lines:
the un-stripped line (still carrying its `!`) is globbed and re-added. -/
def igStep (w : World) (files : Finset String) (rawLine : String) :
    Finset String :=
  let line := pyRstrip rawLine
  if pyStartsWith line "#" then files
  else
    let files' :=
      if pyStartsWith line "!" then
        files \ (pdGlob w (pyDropLeft line 1)).toFinset
      else files
    files' ∪ (pdGlob w line).toFinset

/-- `parse_dockerignore` over the lines of an ignore file. -/
def parseDockerignoreLines (w : World) (lines : List String) :
    Finset String :=
  lines.foldl (igStep w) ∅

/-- `parse_dockerignore(path)` at a build-context directory: a missing
ignore file yields the empty collection (docker.py:166-170). -/
def parseDockerignoreAt (w : World) (ctx : String) : Finset String :=
  match w.dockerignoreLines ctx with
  | none => ∅
  | some ls => parseDockerignoreLines w ls

/-- `update_file_hash` (cli.py:115-126): skip non-files and ignored
paths, otherwise absorb the file's bytes block by block. -/
def updateFileHash (w : World) (ig : Finset String) (f : String) :
    List Nat :=
  if w.isFile f = false then []
  else if f ∈ ig then []
  else (readChunks w.blocksize (w.content f)).flatten

/-- Expansion and absorption of one source pattern (cli.py:130-137):
glob it, sort, recurse (sorted) into directories. -/
def expandSrc (w : World) (ig : Finset String) (src : String) : List Nat :=
  ((sortStr (w.glob src)).map
    (fun f =>
      if w.isDir f then
        ((sortStr (w.globRec (f ++ "/**"))).map (updateFileHash w ig)).flatten
      else updateFileHash w ig f)).flatten

/-- The byte stream absorbed for the source list
`[dockerfile_path] + copied_srcs + added_srcs` (cli.py:128-137). -/
def filesStream (w : World) (ig : Finset String) (srcs : List String) :
    List Nat :=
  (srcs.map (expandSrc w ig)).flatten

/-- `files_hash = hasher.hexdigest()` (cli.py:139): the digest of the
parent-digest bytes followed by the source-file bytes. -/
def imageDigest (w : World) (parentBytes : List Nat) (ig : Finset String)
    (srcs : List String) : String :=
  hashHex (parentBytes ++ filesStream w ig srcs)

/-! ### Python `dict` model (insertion-ordered association list) -/

/-- `d[k] = v`: overwrite the (unique) existing entry in place, else
append. -/
def dictInsert : List (String × String) → String → String →
    List (String × String)
  | [], k, v => [(k, v)]
  | (k', v') :: rest, k, v =>
    if k' = k then (k, v) :: rest else (k', v') :: dictInsert rest k v

/-- `d.get(k)` / `d[k]`: first (and, as maintained by `dictInsert`,
unique) entry with the key. -/
def dictGet : List (String × String) → String → Option String
  | [], _ => none
  | (k₀, v₀) :: rest, k => if k₀ = k then some v₀ else dictGet rest k

/-- `d.update(e)`: insert every entry of `e`, in `e`'s iteration order. -/
def dictUpdate (m e : List (String × String)) : List (String × String) :=
  e.foldl (fun acc kv => dictInsert acc kv.1 kv.2) m

/-- One step of `dict(iterable)`: accept only 2-sequences, else
`ValueError` (modelled as `none`). -/
def dictStep (acc : Option (List (String × String))) (l : List String) :
    Option (List (String × String)) :=
  acc.bind (fun m =>
    match l with
    | [k, v] => some (dictInsert m k v)
    | _ => none)

/-- `dict(iterable)` where the iterable yields the results of
`str.split`. -/
def dictFromKVLists (ls : List (List String)) :
    Option (List (String × String)) :=
  ls.foldl dictStep (some [])

/-- `build_with_cache` lines 36-39: parse the caller's `ARG=VALUE` pairs
into a dict, then unconditionally inject `GIT_SHA` and `IMAGE_TAG`. -/
def mkBuildArg (kvs : List String) (gitSha gitShaTag : String) :
    Option (List (String × String)) :=
  (dictFromKVLists (kvs.map (fun kv => pySplitOn kv '='))).map
    (fun d => dictInsert (dictInsert d "GIT_SHA" gitSha) "IMAGE_TAG" gitShaTag)

/-- `Dockerfile.__init__` lines 29-31: default values of `ARG name=value`
instructions, as a dict (`ValueError` on a value with several `=`). -/
def dockerfileDefaultArgs (argValues : List String) :
    Option (List (String × String)) :=
  dictFromKVLists
    ((argValues.filter (fun v => pyContains v '=')).map
      (fun v => pySplitOn v '='))

/-- `Dockerfile.__init__` lines 29-34: the effective build arguments,
`default_args.update(build_arg)`. -/
def dockerfileBuildArg (argValues : List String)
    (buildArg : List (String × String)) :
    Option (List (String × String)) :=
  (dockerfileDefaultArgs argValues).map (fun d => dictUpdate d buildArg)

/-! ### Image identity parsing and the recursive orchestrator -/

/-- `image.rsplit("/", 1)`: split at the last slash. -/
def rsplitSlash (s : String) : String × String :=
  let r := s.toList.reverse
  let a := r.takeWhile (fun c => c ≠ '/')
  let b := r.dropWhile (fun c => c ≠ '/')
  (((b.drop 1).reverse).asString, a.reverse.asString)

/-- `parse_docker_image_identity` (docker.py:111-115).  The 2-tuple
unpacking of `image.split(":")` raises `ValueError` (modelled `none`)
when the name part holds more than one colon. -/
def parseDockerImageIdentity (s : String) :
    Option (String × String × String) :=
  let (registry, rest) :=
    if pyContains s '/' then rsplitSlash s else ("", s)
  if pyContains rest ':' then
    match pySplitOn rest ':' with
    | [n, t] => some (registry, n, t)
    | _ => none
  else some (registry, rest, "")

/-- `_tag_to_extra_tags` (cli.py:25-31): tag the image to every extra tag
and extra name; a non-zero exit is only logged, nothing is returned. -/
def tagToExtraTags (w : World) (image tag : String) : List Action :=
  ((w.extraTags.map (fun e =>
      (runDocker w (DockerCmd.tag (image ++ ":" ++ tag)
        (image ++ ":" ++ e))).2)).flatten) ++
  ((w.extraNames.map (fun nm =>
      (runDocker w (DockerCmd.tag (image ++ ":" ++ tag) nm)).2)).flatten)

/-- The parent loop of `_build` (cli.py:93-111): resolve each parent in
manifest order, raise (`error`) if one yields `None` (or the identity
fails to parse), and absorb each parent digest's bytes in order. -/
def buildParents
    (bld : String → String → String → Except Unit (Option String) × List Action) :
    List String → Except Unit (List Nat) × List Action
  | [] => (Except.ok [], [])
  | p :: ps =>
    match parseDockerImageIdentity p with
    | none => (Except.error (), [])
    | some (r, n, t) =>
      match bld r n t with
      | (Except.error _, tr) => (Except.error (), tr)
      | (Except.ok none, tr) => (Except.error (), tr)
      | (Except.ok (some d), tr) =>
        match buildParents bld ps with
        | (Except.error _, tr2) => (Except.error (), tr ++ tr2)
        | (Except.ok bytes, tr2) => (Except.ok (strBytes d ++ bytes), tr ++ tr2)

/-- The content-tag phase of `_build` (cli.py:142-182): check the content
tag, else the legacy registry location, else build; push what was built
or bridged.  `false` = the Python function bailed out with `return`
(`None`). -/
def contentPhase (w : World) (image imageName dfPath hashTag : String) :
    Bool × List Action :=
  let hashRef := image ++ ":" ++ hashTag
  let oldHashImage :=
    "docker-registry.example.com:5000/" ++ imageName ++ ":" ++ hashTag
  let hit := pullCheck w hashRef
  if hit.1 then (true, hit.2)
  else
    let oldHit := pullCheck w oldHashImage
    if oldHit.1 then
      let t := runDocker w (DockerCmd.tag oldHashImage hashRef)
      if t.1 = false then (false, hit.2 ++ oldHit.2 ++ t.2)
      else
        let p := runDocker w (DockerCmd.push hashRef)
        if p.1 = false then (false, hit.2 ++ oldHit.2 ++ t.2 ++ p.2)
        else (true, hit.2 ++ oldHit.2 ++ t.2 ++ p.2)
    else
      let b := runDocker w (DockerCmd.build w.buildPath dfPath hashRef)
      if b.1 = false then (false, hit.2 ++ oldHit.2 ++ b.2)
      else
        let p := runDocker w (DockerCmd.push hashRef)
        if p.1 = false then (false, hit.2 ++ oldHit.2 ++ b.2 ++ p.2)
        else (true, hit.2 ++ oldHit.2 ++ b.2 ++ p.2)

/-- The final publishing phase of `_build` (cli.py:184-198): tag the
content-tag image to the version tag, propagate extra tags/names, push,
fetch the digest.  `none` = a bare Python `return`. -/
def finalPhase (w : World) (image gitSha hashTag : String) :
    Option String × List Action :=
  let t := runDocker w
    (DockerCmd.tag (image ++ ":" ++ hashTag) (image ++ ":" ++ gitSha))
  if t.1 = false then (none, t.2)
  else
    let extras := tagToExtraTags w image gitSha
    let p := runDocker w (DockerCmd.push (image ++ ":" ++ gitSha))
    if p.1 = false then (none, t.2 ++ extras ++ p.2)
    else
      let d := getImageDigest w (image ++ ":" ++ gitSha)
      if d.1 = "" then (none, t.2 ++ extras ++ p.2 ++ d.2)
      else (some d.1, t.2 ++ extras ++ p.2 ++ d.2)

/-- The recursive `_build` closure (cli.py:41-198).  `fuel` bounds the
recursion depth (exhaustion models Python's recursion limit, an
exception).  Result values: `error` = an uncaught exception, `ok none` =
a bare `return`, `ok (some d)` = `return d` (where `d = ""` is the
foreign-registry early return). -/
def bwcBuild (w : World) :
    Nat → String → String → String → Except Unit (Option String) × List Action
  | 0, _, _, _ => (Except.error (), [])
  | fuel + 1, registry, imageName, gitSha =>
    let image := registry ++ "/" ++ imageName
    if registry = w.dockerRegistry then
      let ref := image ++ ":" ++ gitSha
      let ex := pullCheck w ref
      if ex.1 then
        let d := getImageDigest w ref
        if d.1 = "" then (Except.error (), ex.2 ++ d.2)
        else (Except.ok (some d.1), ex.2 ++ d.2 ++ tagToExtraTags w image gitSha)
      else
        let ig := parseDockerignoreAt w (w.buildContext imageName)
        let dfPath := w.dockerfilePath imageName
        if w.isFile dfPath = false then (Except.error (), ex.2)
        else
          let m := w.manifest dfPath
          match dockerfileDefaultArgs m.argValues with
          | none => (Except.error (), ex.2)
          | some _ =>
            match buildParents (bwcBuild w fuel) m.parentImages with
            | (Except.error _, trP) => (Except.error (), ex.2 ++ trP)
            | (Except.ok parentBytes, trP) =>
              let hashTag := "hash-" ++
                imageDigest w parentBytes ig
                  (dfPath :: (m.copiedSrcs ++ m.addedSrcs))
              let c := contentPhase w image imageName dfPath hashTag
              if c.1 = false then (Except.ok none, ex.2 ++ trP ++ c.2)
              else
                let f := finalPhase w image gitSha hashTag
                (Except.ok f.1, ex.2 ++ trP ++ c.2 ++ f.2)
    else (Except.ok (some ""), [])

/-! ### The spec's whole-content description of file hashing -/

/-- The spec's description of file absorption ("the naive whole-content
hash"): the entire byte content absorbed in one step, with the same
skip conditions as `update_file_hash`. -/
def updateFileHashNaive (w : World) (ig : Finset String) (f : String) :
    List Nat :=
  if w.isFile f = false then []
  else if f ∈ ig then []
  else w.content f

/-- A baseline world used to instantiate theorems with hypotheses. -/
def w0 : World where
  dockerRegistry := "reg.example.com:5000"
  dryRun := false
  blocksize := 65536
  buildPath := "."
  extraTags := []
  extraNames := []
  isFile := fun _ => false
  isDir := fun _ => false
  content := fun _ => []
  glob := fun _ => []
  globRec := fun _ => []
  dockerignoreLines := fun _ => none
  buildContext := fun _ => "."
  dockerfilePath := fun nm => "images/" ++ nm ++ "/Dockerfile"
  manifest := fun _ => ⟨[], [], [], []⟩
  cmdOk := fun _ => true
  digestOf := fun _ => ""

/-- Value of the last occurrence of a key in an association list (the
occurrence that wins under repeated insertion). -/
def lastGet (m : List (String × String)) (k : String) : Option String :=
  dictGet m.reverse k

/-- A world in which the extra-tag invocation fails while everything
else succeeds. -/
def wExtraFail : World :=
  { w0 with
    extraTags := ["latest"]
    cmdOk := fun c =>
      match c with
      | DockerCmd.tag _ "r/i:latest" => false
      | _ => true
    digestOf := fun _ => "sha256:abc" }

/-- A world identical except that the extra-tag invocation succeeds. -/
def wExtraOk : World :=
  { w0 with
    extraTags := ["latest"]
    cmdOk := fun _ => true
    digestOf := fun _ => "sha256:abc" }

/-- A fully successful non-dry-run world with one extra tag, used to
exhibit the order of operations in the final phase. -/
def wC8 : World :=
  { w0 with
    extraTags := ["e"]
    cmdOk := fun _ => true
    digestOf := fun _ => "sha256:abc" }

/-- Actions that are not mere pull checks or digest reads: a `docker
tag`, `docker push` or `docker build` invocation or spawn. -/
def mutatesImage : Action → Bool
  | Action.attempt (DockerCmd.pull _) => false
  | Action.contact (DockerCmd.pull _) => false
  | Action.http _ => false
  | _ => true

/-- Actions that actually contact the registry / spawn a subprocess. -/
def isContactA : Action → Bool
  | Action.contact _ => true
  | _ => false

/-- A parent reference whose recursive resolution fails to produce a
digest: its identity fails to parse (a `ValueError`), or the recursive
`_build` raises, or it bails out returning `None`. -/
def ParentResolutionFails
    (bld : String → String → String → Except Unit (Option String) × List Action)
    (p : String) : Prop :=
  match parseDockerImageIdentity p with
  | none => True
  | some (r, n, t) =>
    (bld r n t).1 = Except.error () ∨ (bld r n t).1 = Except.ok none

/-- A world whose image `app` has a parent `p` whose dockerfile is
missing, so resolving the parent raises. -/
def wC3 : World :=
  { w0 with
    cmdOk := fun c =>
      match c with
      | DockerCmd.pull _ => false
      | _ => true
    isFile := fun f => f = "images/app/Dockerfile"
    manifest := fun f =>
      if f = "images/app/Dockerfile" then
        ⟨["reg.example.com:5000/p:t1"], [], [], []⟩
      else ⟨[], [], [], []⟩ }

/-- A dry-run world with a parentless image `app` whose dockerfile
exists. -/
def wDry : World :=
  { w0 with
    dryRun := true
    isFile := fun f => f = "images/app/Dockerfile"
    digestOf := fun _ => "sha256:dry" }

/-- Filesystem for the first ignore example: directory `build/` holding
`keep.txt` and `tmp.txt`. -/
def wIgnore : World :=
  { w0 with
    isFile := fun f => f = "build/keep.txt" ∨ f = "build/tmp.txt"
    isDir := fun f => f = "build/"
    content := fun f => if f = "build/keep.txt" then [1, 2, 3] else [7]
    globRec := fun p =>
      if p = "build/" then ["build/"]
      else if p = "build//**" then ["build/", "build/keep.txt", "build/tmp.txt"]
      else if p = "build/keep.txt" then ["build/keep.txt"]
      else [] }

/-- Filesystem for the duplicate-rule ignore example: two log files. -/
def wLog : World :=
  { w0 with
    globRec := fun p => if p = "*.log" then ["a.log", "b.log"] else [] }

/-- Filesystem refuting the unconditional-removal reading of the ignore
semantics: files `b`, `!b` and `!!b` exist, so the glob of the
un-stripped negated line `!!*` matches `!!b` and re-adds it. -/
def wBang : World :=
  { w0 with
    globRec := fun p =>
      if p = "*" then ["b", "!b", "!!b"]
      else if p = "!*" then ["!b", "!!b"]
      else if p = "!!*" then ["!!b"]
      else [] }

/-- Two glob oracles for the same snapshot (two files `a` and `b`),
returning matches in opposite traversal orders. -/
def wPermA : World :=
  { w0 with
    isFile := fun f => f = "a" ∨ f = "b"
    content := fun f => if f = "a" then [10] else [20]
    glob := fun p => if p = "*" then ["a", "b"] else [] }

/-- The same snapshot as `wPermA` with the glob enumeration reversed. -/
def wPermB : World :=
  { w0 with
    isFile := fun f => f = "a" ∨ f = "b"
    content := fun f => if f = "a" then [10] else [20]
    glob := fun p => if p = "*" then ["b", "a"] else [] }

/-! ### Helper lemmas -/

theorem readChunksFuel_flatten (bs : Nat) (hbs : 0 < bs) :
    ∀ (fuel : Nat) (l : List Nat), l.length ≤ fuel →
      (readChunksFuel bs fuel l).flatten = l := by
  intro fuel
  induction fuel with
  | zero =>
    intro l hl
    have hnil : l = [] := List.eq_nil_of_length_eq_zero (Nat.le_zero.1 hl)
    simp [readChunksFuel, hnil]
  | succ n ih =>
    intro l hl
    by_cases hln : l = []
    · simp [readChunksFuel, hln]
    · have hcond : ¬(bs = 0 ∨ l = []) := by
        push_neg
        exact ⟨Nat.pos_iff_ne_zero.1 hbs, hln⟩
      rw [readChunksFuel, if_neg hcond, List.flatten_cons]
      have hdrop : (l.drop bs).length ≤ n := by
        have hpos : 0 < l.length := List.length_pos.2 hln
        simp only [List.length_drop]
        omega
      rw [ih (l.drop bs) hdrop, List.take_append_drop]

theorem readChunks_flatten {bs : Nat} (hbs : 0 < bs) (l : List Nat) :
    (readChunks bs l).flatten = l :=
  readChunksFuel_flatten bs hbs l.length l Nat.le.refl

/-! ### C9 — streaming file hash equals whole-content hash -/

/-- C9: for every readable file, absorbing its content block by block
with any positive read-buffer size (the configured
`READ_FILE_BLOCKSIZE`, default 65536) absorbs exactly the file's whole
byte content: the streaming implementation of `update_file_hash` is
equivalent to the naive whole-content hash. -/
theorem c9_streaming_hash_equals_whole (w : World) (ig : Finset String)
    (f : String) (hbs : 0 < w.blocksize) :
    updateFileHash w ig f = updateFileHashNaive w ig f := by
  unfold updateFileHash updateFileHashNaive
  by_cases h1 : w.isFile f = false
  · simp [h1]
  · by_cases h2 : f ∈ ig
    · simp [h1, h2]
    · simp [h1, h2, readChunks_flatten hbs]

/-- Witness for C9 at the default block size 65536 and a concrete file. -/
theorem c9_witness :
    0 < w0.blocksize ∧
      updateFileHash w0 ∅ "main.go" = updateFileHashNaive w0 ∅ "main.go" :=
  ⟨by decide, c9_streaming_hash_equals_whole w0 ∅ "main.go" (by decide)⟩

/-! ### C4 — foreign target registry is a no-op -/

theorem bwcBuild_foreign (w : World) (fuel : Nat)
    (registry imageName gitSha : String)
    (hr : registry ≠ w.dockerRegistry) :
    bwcBuild w (fuel + 1) registry imageName gitSha =
      (Except.ok (some ""), []) := by
  rw [bwcBuild]
  simp [hr]

/-- C4: whenever `_build` is invoked with a target registry different
from the configured cache registry, it performs no build, tag, push or
pull (the action trace is empty) and returns the empty string. -/
theorem c4_foreign_registry_noop (w : World) (fuel : Nat)
    (registry imageName gitSha : String)
    (hr : registry ≠ w.dockerRegistry) :
    bwcBuild w (fuel + 1) registry imageName gitSha =
      (Except.ok (some ""), []) :=
  bwcBuild_foreign w fuel registry imageName gitSha hr

/-- Witness for C4: a registry that is not the cache registry. -/
theorem c4_witness :
    bwcBuild w0 1 "other.registry.io" "app" "abc123" =
      (Except.ok (some ""), []) :=
  c4_foreign_registry_noop w0 0 "other.registry.io" "app" "abc123"
    (by decide)


/-! ### Dict lemmas for C10 -/

theorem dictGet_append (l₁ l₂ : List (String × String)) (k : String) :
    dictGet (l₁ ++ l₂) k = (dictGet l₁ k).or (dictGet l₂ k) := by
  induction l₁ with
  | nil => simp [dictGet]
  | cons hd tl ih =>
    obtain ⟨k₀, v₀⟩ := hd
    by_cases h : k₀ = k <;> simp [dictGet, h, ih]

theorem dictGet_dictInsert (m : List (String × String)) (k v k' : String) :
    dictGet (dictInsert m k v) k' =
      if k' = k then some v else dictGet m k' := by
  induction m with
  | nil =>
    simp only [dictInsert, dictGet]
    by_cases h : k' = k
    · subst h; simp
    · rw [if_neg (fun hh => h hh.symm), if_neg h]
  | cons hd tl ih =>
    obtain ⟨k₀, v₀⟩ := hd
    simp only [dictInsert]
    by_cases h0 : k₀ = k
    · subst h0
      simp only [if_pos rfl, dictGet]
      by_cases h : k' = k₀
      · subst h; simp
      · rw [if_neg (fun hh => h hh.symm), if_neg h,
          if_neg (fun hh => h hh.symm)]
    · rw [if_neg h0]
      simp only [dictGet]
      by_cases h : k₀ = k'
      · rw [if_pos h, if_pos h, if_neg (fun hh => h0 (h.trans hh))]
      · rw [if_neg h, if_neg h, ih]

theorem mem_keys_dictInsert (m : List (String × String)) (k v a : String)
    (ha : a ∈ (dictInsert m k v).map Prod.fst) :
    a ∈ m.map Prod.fst ∨ a = k := by
  induction m with
  | nil =>
    simp [dictInsert] at ha
    simp [ha]
  | cons hd tl ih =>
    obtain ⟨k₀, v₀⟩ := hd
    by_cases h0 : k₀ = k
    · simp only [dictInsert, if_pos h0, List.map_cons, List.mem_cons] at ha
      rcases ha with h | h
      · right; exact h
      · left; simp [h]
    · simp only [dictInsert, if_neg h0, List.map_cons, List.mem_cons] at ha
      rcases ha with h | h
      · left; simp [h]
      · rcases ih h with h' | h'
        · left; simp [h']
        · right; exact h'

theorem keys_nodup_dictInsert (m : List (String × String)) (k v : String)
    (hm : (m.map Prod.fst).Nodup) :
    ((dictInsert m k v).map Prod.fst).Nodup := by
  induction m with
  | nil => simp [dictInsert]
  | cons hd tl ih =>
    obtain ⟨k₀, v₀⟩ := hd
    simp only [List.map_cons, List.nodup_cons] at hm
    by_cases h0 : k₀ = k
    · subst h0
      have hrw : dictInsert ((k₀, v₀) :: tl) k₀ v = (k₀, v) :: tl := by
        simp [dictInsert]
      rw [hrw]
      simp only [List.map_cons, List.nodup_cons]
      exact hm
    · simp only [dictInsert, if_neg h0, List.map_cons, List.nodup_cons]
      refine ⟨fun hmem => ?_, ih hm.2⟩
      rcases mem_keys_dictInsert tl k v k₀ hmem with h | h
      · exact hm.1 h
      · exact h0 h

theorem dictGet_eq_none_of_not_mem_keys (m : List (String × String))
    (k : String) (h : k ∉ m.map Prod.fst) : dictGet m k = none := by
  induction m with
  | nil => simp [dictGet]
  | cons hd tl ih =>
    obtain ⟨k₀, v₀⟩ := hd
    simp only [List.map_cons, List.mem_cons, not_or] at h
    have h1 : k₀ ≠ k := fun hh => h.1 hh.symm
    simp only [dictGet, if_neg h1]
    exact ih h.2

theorem lastGet_eq_dictGet (m : List (String × String)) (k : String)
    (hm : (m.map Prod.fst).Nodup) : lastGet m k = dictGet m k := by
  induction m with
  | nil => rfl
  | cons hd tl ih =>
    obtain ⟨k₀, v₀⟩ := hd
    simp only [List.map_cons, List.nodup_cons] at hm
    simp only [lastGet, List.reverse_cons, dictGet_append]
    by_cases h : k₀ = k
    · subst h
      have htlr : dictGet tl.reverse k₀ = none := by
        apply dictGet_eq_none_of_not_mem_keys
        simpa using hm.1
      simp [dictGet, htlr]
    · rw [show lastGet tl k = dictGet tl.reverse k from rfl] at ih
      rw [ih hm.2]
      simp only [dictGet, if_neg h]
      cases dictGet tl k <;> simp [Option.or]

theorem lastGet_cons (k₀ v₀ : String) (tl : List (String × String))
    (k : String) :
    lastGet ((k₀, v₀) :: tl) k =
      (lastGet tl k).or (if k₀ = k then some v₀ else none) := by
  simp only [lastGet, List.reverse_cons, dictGet_append]
  rfl

theorem dictGet_dictUpdate (m e : List (String × String)) (k : String) :
    dictGet (dictUpdate m e) k = (lastGet e k).or (dictGet m k) := by
  induction e generalizing m with
  | nil => simp [dictUpdate, lastGet, dictGet]
  | cons hd tl ih =>
    obtain ⟨k₀, v₀⟩ := hd
    simp only [dictUpdate, List.foldl_cons] at ih ⊢
    rw [ih (dictInsert m k₀ v₀), dictGet_dictInsert, lastGet_cons]
    by_cases h : k = k₀
    · subst h
      cases hlt : lastGet tl k <;> simp [Option.or]
    · rw [if_neg h, if_neg (fun hh => h hh.symm)]
      cases hlt : lastGet tl k <;> simp [Option.or]

theorem foldl_dictStep_none (tl : List (List String)) :
    tl.foldl dictStep none = none := by
  induction tl with
  | nil => rfl
  | cons hd tl ih => simpa [dictStep] using ih

theorem keys_nodup_foldl_dictStep :
    ∀ (ls : List (List String)) (init : List (String × String)),
      (init.map Prod.fst).Nodup →
      ∀ m, ls.foldl dictStep (some init) = some m →
        (m.map Prod.fst).Nodup := by
  intro ls
  induction ls with
  | nil =>
    intro init hinit m hm
    simp at hm
    simpa [← hm] using hinit
  | cons hd tl ih =>
    intro init hinit m hm
    simp only [List.foldl_cons] at hm
    match hd with
    | [] =>
      rw [show dictStep (some init) [] = none from rfl,
        foldl_dictStep_none] at hm
      exact absurd hm (by simp)
    | [k] =>
      rw [show dictStep (some init) [k] = none from rfl,
        foldl_dictStep_none] at hm
      exact absurd hm (by simp)
    | [k, v] =>
      rw [show dictStep (some init) [k, v] =
        some (dictInsert init k v) from rfl] at hm
      exact ih (dictInsert init k v)
        (keys_nodup_dictInsert init k v hinit) m hm
    | a :: b :: c :: rest =>
      rw [show dictStep (some init) (a :: b :: c :: rest) = none from rfl,
        foldl_dictStep_none] at hm
      exact absurd hm (by simp)

theorem keys_nodup_dictFromKVLists (ls : List (List String))
    (m : List (String × String)) (h : dictFromKVLists ls = some m) :
    (m.map Prod.fst).Nodup :=
  keys_nodup_foldl_dictStep ls [] (by simp) m h

/-! ### C10 — effective build arguments -/

/-- C10: the effective arguments computed by `Dockerfile.__init__` are
the manifest-declared `ARG` defaults updated with the caller-supplied
mapping, the caller winning for every name present in both, and the
reserved keys `GIT_SHA` / `IMAGE_TAG` injected by `build_with_cache`
are always present with the injected values. -/
theorem c10_effective_build_args (argVals kvs : List String)
    (gitSha gitShaTag : String) (defaults caller : List (String × String))
    (hd : dockerfileDefaultArgs argVals = some defaults)
    (hc : mkBuildArg kvs gitSha gitShaTag = some caller) :
    dockerfileBuildArg argVals caller = some (dictUpdate defaults caller) ∧
    dictGet (dictUpdate defaults caller) "GIT_SHA" = some gitSha ∧
    dictGet (dictUpdate defaults caller) "IMAGE_TAG" = some gitShaTag ∧
    ∀ k, dictGet (dictUpdate defaults caller) k =
      (dictGet caller k).or (dictGet defaults k) := by
  obtain ⟨c0, hc0, hcall⟩ := Option.map_eq_some'.1 hc
  have hnodup : (caller.map Prod.fst).Nodup := by
    rw [← hcall]
    exact keys_nodup_dictInsert _ _ _
      (keys_nodup_dictInsert _ _ _ (keys_nodup_dictFromKVLists _ _ hc0))
  have hget : ∀ k, dictGet (dictUpdate defaults caller) k =
      (dictGet caller k).or (dictGet defaults k) := by
    intro k
    rw [dictGet_dictUpdate, lastGet_eq_dictGet caller k hnodup]
  refine ⟨?_, ?_, ?_, hget⟩
  · unfold dockerfileBuildArg
    rw [hd]
    rfl
  · rw [hget "GIT_SHA", ← hcall, dictGet_dictInsert, dictGet_dictInsert]
    simp
  · rw [hget "IMAGE_TAG", ← hcall, dictGet_dictInsert]
    simp

/-- Witness for C10 on concrete arguments: `FOO` declared with default
`def` and overridden by the caller's `FOO=x`; `BAR` keeps its default;
the reserved keys hold the injected values. -/
theorem c10_witness :
    dictGet (dictUpdate [("FOO", "def"), ("BAR", "b")]
      [("FOO", "x"), ("GIT_SHA", "g1"), ("IMAGE_TAG", "g1t")])
      "GIT_SHA" = some "g1" ∧
    dictGet (dictUpdate [("FOO", "def"), ("BAR", "b")]
      [("FOO", "x"), ("GIT_SHA", "g1"), ("IMAGE_TAG", "g1t")])
      "FOO" = (dictGet [("FOO", "x"), ("GIT_SHA", "g1"),
        ("IMAGE_TAG", "g1t")] "FOO").or
        (dictGet [("FOO", "def"), ("BAR", "b")] "FOO") := by
  have h := c10_effective_build_args ["FOO=def", "BAR=b"] ["FOO=x"]
    "g1" "g1t" [("FOO", "def"), ("BAR", "b")]
    [("FOO", "x"), ("GIT_SHA", "g1"), ("IMAGE_TAG", "g1t")]
    (by decide) (by decide)
  exact ⟨h.2.1, h.2.2.2 "FOO"⟩

/-! ### Trace helper lemmas -/

theorem runDocker_trace (w : World) (c : DockerCmd) :
    (runDocker w c).2 =
      if w.dryRun then [Action.attempt c]
      else [Action.attempt c, Action.contact c] := by
  unfold runDocker
  by_cases h : w.dryRun <;> simp [h]

theorem runDocker_fst (w : World) (c : DockerCmd) :
    (runDocker w c).1 = if w.dryRun then true else w.cmdOk c := by
  unfold runDocker
  by_cases h : w.dryRun <;> simp [h]

theorem attempt_mem_runDocker_trace (w : World) (c : DockerCmd) :
    Action.attempt c ∈ (runDocker w c).2 := by
  rw [runDocker_trace]
  by_cases h : w.dryRun <;> simp [h]

theorem tagToExtraTags_congr (w w' : World)
    (h1 : w.dryRun = w'.dryRun) (h2 : w.extraTags = w'.extraTags)
    (h3 : w.extraNames = w'.extraNames) (image tag : String) :
    tagToExtraTags w image tag = tagToExtraTags w' image tag := by
  simp only [tagToExtraTags, runDocker_trace, h1, h2, h3]

/-! ### C7 — extra tags/names are independent and non-fatal -/

/-- C7: every extra tag and every extra name is attempted (one `docker
tag` invocation each) no matter how any of the other invocations exit,
and the result and trace of the final publishing phase do not depend on
the exit status of the extra-tag/extra-name invocations: two worlds that
agree on everything the control flow reads — but may disagree
arbitrarily on the exit status of the extra-tag commands — produce the
same digest and the same trace. -/
theorem c7_extra_tags_independent (w w' : World)
    (image gitSha hashTag : String)
    (h1 : w.dryRun = w'.dryRun) (h2 : w.extraTags = w'.extraTags)
    (h3 : w.extraNames = w'.extraNames)
    (htag : w.cmdOk (DockerCmd.tag (image ++ ":" ++ hashTag)
      (image ++ ":" ++ gitSha)) =
      w'.cmdOk (DockerCmd.tag (image ++ ":" ++ hashTag)
        (image ++ ":" ++ gitSha)))
    (hpush : w.cmdOk (DockerCmd.push (image ++ ":" ++ gitSha)) =
      w'.cmdOk (DockerCmd.push (image ++ ":" ++ gitSha)))
    (hdig : w.digestOf (image ++ ":" ++ gitSha) =
      w'.digestOf (image ++ ":" ++ gitSha)) :
    (∀ e ∈ w.extraTags,
      Action.attempt (DockerCmd.tag (image ++ ":" ++ gitSha)
        (image ++ ":" ++ e)) ∈ tagToExtraTags w image gitSha) ∧
    (∀ nm ∈ w.extraNames,
      Action.attempt (DockerCmd.tag (image ++ ":" ++ gitSha) nm) ∈
        tagToExtraTags w image gitSha) ∧
    finalPhase w image gitSha hashTag =
      finalPhase w' image gitSha hashTag := by
  refine ⟨?_, ?_, ?_⟩
  · intro e he
    apply List.mem_append_left
    apply List.mem_flatten.2
    exact ⟨_, List.mem_map_of_mem _ he, attempt_mem_runDocker_trace _ _⟩
  · intro nm hnm
    apply List.mem_append_right
    apply List.mem_flatten.2
    exact ⟨_, List.mem_map_of_mem _ hnm, attempt_mem_runDocker_trace _ _⟩
  · have hext := tagToExtraTags_congr w w' h1 h2 h3 image gitSha
    unfold finalPhase getImageDigest
    rw [hext]
    simp only [runDocker_trace, runDocker_fst, h1, htag, hpush, hdig]

/-- Witness for C7: with one failing extra tag the attempt is still
made, and the published digest and trace match the all-success world. -/
theorem c7_witness :
    Action.attempt (DockerCmd.tag "r/i:g" "r/i:latest") ∈
      tagToExtraTags wExtraFail "r/i" "g" ∧
    finalPhase wExtraFail "r/i" "g" "h" =
      finalPhase wExtraOk "r/i" "g" "h" := by
  have h := c7_extra_tags_independent wExtraFail wExtraOk "r/i" "g" "h"
    rfl rfl rfl (by decide) (by decide) rfl
  exact ⟨h.1 "latest" (by decide), h.2.2⟩

/-! ### C8 — order of the final publishing phase (corrected) -/

/-- C8 counterexample: in the final publishing phase the extra-tag
propagation happens strictly before the push of the version tag, so the
claimed order "tag, then push, then extra tags, then digest" is false:
here the extra-tag attempt has a smaller trace index than the push
attempt of the version tag. -/
theorem c8_counterexample :
    (finalPhase wC8 "r/i" "g" "h").1 = some "sha256:abc" ∧
    Action.attempt (DockerCmd.push "r/i:g") ∈ (finalPhase wC8 "r/i" "g" "h").2 ∧
    (finalPhase wC8 "r/i" "g" "h").2.indexOf
        (Action.attempt (DockerCmd.tag "r/i:g" "r/i:e")) <
      (finalPhase wC8 "r/i" "g" "h").2.indexOf
        (Action.attempt (DockerCmd.push "r/i:g")) := by
  decide

/-- C8 amended: for every successfully published image the final phase
performs, in this order: tag the content-tag image to the version tag,
propagate the extra tags and extra names, push the version tag, fetch
and return the final digest. -/
theorem c8_final_phase_order (w : World) (image gitSha hashTag : String)
    (ht : (runDocker w (DockerCmd.tag (image ++ ":" ++ hashTag)
      (image ++ ":" ++ gitSha))).1 = true)
    (hp : (runDocker w (DockerCmd.push (image ++ ":" ++ gitSha))).1 = true)
    (hd : w.digestOf (image ++ ":" ++ gitSha) ≠ "") :
    finalPhase w image gitSha hashTag =
      (some (w.digestOf (image ++ ":" ++ gitSha)),
        (runDocker w (DockerCmd.tag (image ++ ":" ++ hashTag)
          (image ++ ":" ++ gitSha))).2
        ++ tagToExtraTags w image gitSha
        ++ (runDocker w (DockerCmd.push (image ++ ":" ++ gitSha))).2
        ++ [Action.http (image ++ ":" ++ gitSha)]) := by
  unfold finalPhase getImageDigest
  simp [ht, hp, hd]

/-- Witness for C8's amended order at a concrete successful world. -/
theorem c8_witness :
    finalPhase wC8 "r/i" "g" "h" =
      (some "sha256:abc",
        (runDocker wC8 (DockerCmd.tag "r/i:h" "r/i:g")).2
        ++ tagToExtraTags wC8 "r/i" "g"
        ++ (runDocker wC8 (DockerCmd.push "r/i:g")).2
        ++ [Action.http "r/i:g"]) :=
  c8_final_phase_order wC8 "r/i" "g" "h" (by decide) (by decide) (by decide)

/-! ### C3 — a failing parent aborts the whole build -/

theorem buildParents_fst_error
    (bld : String → String → String → Except Unit (Option String) × List Action) :
    ∀ parents : List String,
      (∃ p ∈ parents, ParentResolutionFails bld p) →
      (buildParents bld parents).1 = Except.error () := by
  intro parents
  induction parents with
  | nil => rintro ⟨p, hp, _⟩; cases hp
  | cons q qs ih =>
    rintro ⟨p, hp, hf⟩
    rcases List.mem_cons.1 hp with h | h
    · subst h
      unfold ParentResolutionFails at hf
      cases hq : parseDockerImageIdentity p with
      | none => simp [buildParents, hq]
      | some rnt =>
        obtain ⟨r, n, t⟩ := rnt
        rw [hq] at hf
        simp only at hf
        cases hb : bld r n t with
        | mk res tr =>
          rw [hb] at hf
          simp only at hf
          cases res with
          | error e => simp [buildParents, hq, hb]
          | ok o =>
            cases o with
            | none => simp [buildParents, hq, hb]
            | some d =>
              rcases hf with hf | hf <;> exact absurd hf (by simp)
    · have herr := ih ⟨p, h, hf⟩
      cases hq : parseDockerImageIdentity q with
      | none => simp [buildParents, hq]
      | some rnt =>
        obtain ⟨r, n, t⟩ := rnt
        cases hb : bld r n t with
        | mk res tr =>
          cases res with
          | error e => simp [buildParents, hq, hb]
          | ok o =>
            cases o with
            | none => simp [buildParents, hq, hb]
            | some d =>
              cases hqs : buildParents bld qs with
              | mk res2 tr2 =>
                rw [hqs] at herr
                simp only at herr
                cases res2 with
                | error e2 => simp [buildParents, hq, hb, hqs]
                | ok bytes => exact absurd herr (by simp)

theorem pullCheck_no_mutation (w : World) (ref : String) :
    ∀ a ∈ (pullCheck w ref).2, mutatesImage a = false := by
  unfold pullCheck runDocker
  by_cases h : w.dryRun <;> simp [h, mutatesImage]

/-- C3: whenever some parent of the current image fails to resolve to a
digest (its recursive `_build` raises or returns `None`, or its
identity fails to parse), the parent loop raises; consequently the
current image's `_build` ends with an exception and its trace is
exactly the initial version-tag pull check (which contains no build,
tag or push action) followed by the partial parent trace — no build,
tag or push for the current image is ever attempted and the failure
propagates to the caller as an exception. -/
theorem c3_parent_failure_aborts (w : World) (fuel : Nat)
    (registry imageName gitSha : String) (d : List (String × String))
    (hreg : registry = w.dockerRegistry)
    (hpull : (pullCheck w
      ((registry ++ "/" ++ imageName) ++ ":" ++ gitSha)).1 = false)
    (hdf : w.isFile (w.dockerfilePath imageName) = true)
    (hargs : dockerfileDefaultArgs
      (w.manifest (w.dockerfilePath imageName)).argValues = some d)
    (hfail : ∃ p ∈ (w.manifest (w.dockerfilePath imageName)).parentImages,
      ParentResolutionFails (bwcBuild w fuel) p) :
    (bwcBuild w (fuel + 1) registry imageName gitSha).1 =
      Except.error () ∧
    (bwcBuild w (fuel + 1) registry imageName gitSha).2 =
      (pullCheck w ((registry ++ "/" ++ imageName) ++ ":" ++ gitSha)).2 ++
        (buildParents (bwcBuild w fuel)
          (w.manifest (w.dockerfilePath imageName)).parentImages).2 ∧
    ∀ a ∈ (pullCheck w
        ((registry ++ "/" ++ imageName) ++ ":" ++ gitSha)).2,
      mutatesImage a = false := by
  subst hreg
  have herr := buildParents_fst_error (bwcBuild w fuel) _ hfail
  refine ⟨?_, ?_, pullCheck_no_mutation w _⟩ <;>
  · rw [bwcBuild]
    cases hbp : buildParents (bwcBuild w fuel)
        (w.manifest (w.dockerfilePath imageName)).parentImages with
    | mk res trP =>
      rw [hbp] at herr
      simp only at herr
      cases res with
      | error e => simp [hpull, hdf, hargs, hbp]
      | ok bytes => exact absurd herr (by simp)

/-- Witness for C3: image `app` has parent `p` whose dockerfile is
missing, so the parent raises; the child's build errors with only the
pull check and the parent's partial trace. -/
theorem c3_witness :
    (bwcBuild wC3 2 "reg.example.com:5000" "app" "v1").1 =
      Except.error () ∧
    (bwcBuild wC3 2 "reg.example.com:5000" "app" "v1").2 =
      (pullCheck wC3 (("reg.example.com:5000" ++ "/" ++ "app") ++ ":" ++ "v1")).2 ++
        (buildParents (bwcBuild wC3 1)
          (wC3.manifest (wC3.dockerfilePath "app")).parentImages).2 ∧
    ∀ a ∈ (pullCheck wC3
        (("reg.example.com:5000" ++ "/" ++ "app") ++ ":" ++ "v1")).2,
      mutatesImage a = false :=
  c3_parent_failure_aborts wC3 1 "reg.example.com:5000" "app" "v1" []
    (by decide) (by decide) (by decide) (by decide)
    ⟨"reg.example.com:5000/p:t1", by decide, Or.inl rfl⟩

/-! ### C5 — foreign parents contribute nothing to the child's digest -/

theorem buildParents_drop_foreign (w : World) (fuel : Nat)
    (p : String) (r n t : String)
    (hp : parseDockerImageIdentity p = some (r, n, t))
    (hf : r ≠ w.dockerRegistry) (rest : List String) :
    buildParents (bwcBuild w (fuel + 1)) (p :: rest) =
      buildParents (bwcBuild w (fuel + 1)) rest := by
  have hb := bwcBuild_foreign w fuel r n t hf
  cases hrest : buildParents (bwcBuild w (fuel + 1)) rest with
  | mk res tr =>
    cases res with
    | error e => simp [buildParents, hp, hb, hrest, strBytes]
    | ok bytes => simp [buildParents, hp, hb, hrest, strBytes]

theorem buildParents_congr_tail
    (bld : String → String → String → Except Unit (Option String) × List Action)
    (post : List String) (p q : String)
    (hp : buildParents bld (p :: post) = buildParents bld post)
    (hq : buildParents bld (q :: post) = buildParents bld post) :
    ∀ pre, buildParents bld (pre ++ p :: post) =
      buildParents bld (pre ++ q :: post) := by
  intro pre
  induction pre with
  | nil => rw [List.nil_append, List.nil_append, hp, hq]
  | cons x xs ih =>
    rw [List.cons_append, List.cons_append]
    unfold buildParents
    rw [ih]

/-- C5: a parent hosted on a registry different from the configured
cache registry resolves to the empty string with an empty trace; this is
accepted as a successful digest, and since `"".encode()` is empty the
parent contributes zero bytes to the hash chain — the parent loop on
`p :: rest` equals the loop on `rest` alone, and replacing one foreign
parent by any other foreign parent leaves the child's parent byte
stream, hence its content digest, unchanged. -/
theorem c5_foreign_parent_zero_bytes (w : World) (fuel : Nat)
    (p q : String) (rp np tp rq nq tq : String)
    (hpp : parseDockerImageIdentity p = some (rp, np, tp))
    (hfp : rp ≠ w.dockerRegistry)
    (hpq : parseDockerImageIdentity q = some (rq, nq, tq))
    (hfq : rq ≠ w.dockerRegistry) :
    bwcBuild w (fuel + 1) rp np tp = (Except.ok (some ""), []) ∧
    (∀ rest, buildParents (bwcBuild w (fuel + 1)) (p :: rest) =
      buildParents (bwcBuild w (fuel + 1)) rest) ∧
    ∀ pre post, buildParents (bwcBuild w (fuel + 1)) (pre ++ p :: post) =
      buildParents (bwcBuild w (fuel + 1)) (pre ++ q :: post) := by
  refine ⟨bwcBuild_foreign w fuel rp np tp hfp, ?_, ?_⟩
  · intro rest
    exact buildParents_drop_foreign w fuel p rp np tp hpp hfp rest
  · intro pre post
    exact buildParents_congr_tail (bwcBuild w (fuel + 1)) post p q
      (buildParents_drop_foreign w fuel p rp np tp hpp hfp post)
      (buildParents_drop_foreign w fuel q rq nq tq hpq hfq post)
      pre

/-- Witness for C5 with two distinct foreign parents: each resolves to
the empty digest with no actions, and swapping one for the other leaves
the parent fold's output unchanged. -/
theorem c5_witness :
    bwcBuild w0 1 "other.io" "a" "1" = (Except.ok (some ""), []) ∧
    buildParents (bwcBuild w0 1) ["other.io/a:1"] =
      buildParents (bwcBuild w0 1) [] ∧
    buildParents (bwcBuild w0 1) ["other.io/a:1"] =
      buildParents (bwcBuild w0 1) ["another.io/b:2"] := by
  have h := c5_foreign_parent_zero_bytes w0 0 "other.io/a:1" "another.io/b:2"
    "other.io" "a" "1" "another.io" "b" "2"
    (by decide) (by decide) (by decide) (by decide)
  exact ⟨h.1, h.2.1 [], by
    have := h.2.2 [] []
    simpa using this⟩

/-! ### C6 — dry-run mode -/

theorem runDocker_dry (w : World) (hdry : w.dryRun = true) (c : DockerCmd) :
    runDocker w c = (true, [Action.attempt c]) := by
  simp [runDocker, hdry]

theorem pullCheck_dry (w : World) (hdry : w.dryRun = true) (ref : String) :
    pullCheck w ref = (false, []) := by
  simp [pullCheck, hdry]

theorem filter_flatten_eq_nil {α : Type} (q : Action → Bool) (l : List α)
    (f : α → List Action) (h : ∀ x ∈ l, ((f x).filter q) = []) :
    (((l.map f).flatten).filter q) = [] := by
  induction l with
  | nil => simp
  | cons a as ih =>
    simp only [List.map_cons, List.flatten_cons, List.filter_append]
    rw [h a (by simp), ih (fun x hx => h x (by simp [hx]))]
    rfl

theorem tagToExtraTags_no_contacts (w : World) (hdry : w.dryRun = true)
    (image tag : String) :
    ((tagToExtraTags w image tag).filter isContactA) = [] := by
  unfold tagToExtraTags
  rw [List.filter_append]
  rw [filter_flatten_eq_nil isContactA _ _
      (fun x _ => by rw [runDocker_dry w hdry]; rfl),
    filter_flatten_eq_nil isContactA _ _
      (fun x _ => by rw [runDocker_dry w hdry]; rfl)]
  rfl

theorem contentPhase_dry (w : World) (hdry : w.dryRun = true)
    (image imageName dfPath hashTag : String) :
    contentPhase w image imageName dfPath hashTag =
      (true,
        [Action.attempt (DockerCmd.build w.buildPath dfPath
          (image ++ ":" ++ hashTag)),
         Action.attempt (DockerCmd.push (image ++ ":" ++ hashTag))]) := by
  unfold contentPhase
  simp [pullCheck_dry w hdry, runDocker_dry w hdry]

theorem finalPhase_no_contacts (w : World) (hdry : w.dryRun = true)
    (image gitSha hashTag : String) :
    (((finalPhase w image gitSha hashTag).2).filter isContactA) = [] := by
  unfold finalPhase getImageDigest
  simp only [runDocker_dry w hdry]
  by_cases hd : w.digestOf (image ++ ":" ++ gitSha) = "" <;>
    simp [hd, List.filter_append, tagToExtraTags_no_contacts w hdry,
      isContactA]

theorem buildParents_no_contacts
    (bld : String → String → String → Except Unit (Option String) × List Action)
    (h : ∀ r n t, (((bld r n t).2).filter isContactA) = []) :
    ∀ ps : List String,
      (((buildParents bld ps).2).filter isContactA) = [] := by
  intro ps
  induction ps with
  | nil => simp [buildParents]
  | cons p ps ih =>
    cases hq : parseDockerImageIdentity p with
    | none => simp [buildParents, hq]
    | some rnt =>
      obtain ⟨r, n, t⟩ := rnt
      cases hb : bld r n t with
      | mk res tr =>
        have htr : tr.filter isContactA = [] := by
          have h1 := h r n t
          rw [hb] at h1
          exact h1
        cases res with
        | error e => simp [buildParents, hq, hb, htr]
        | ok o =>
          cases o with
          | none => simp [buildParents, hq, hb, htr]
          | some d =>
            cases hps : buildParents bld ps with
            | mk res2 tr2 =>
              have htr2 : tr2.filter isContactA = [] := by
                rw [hps] at ih
                exact ih
              cases res2 <;>
                simp [buildParents, hq, hb, hps, List.filter_append,
                  htr, htr2]

theorem bwcBuild_no_contacts (w : World) (hdry : w.dryRun = true) :
    ∀ (fuel : Nat) (r n g : String),
      (((bwcBuild w fuel r n g).2).filter isContactA) = [] := by
  intro fuel
  induction fuel with
  | zero => intro r n g; simp [bwcBuild]
  | succ f ih =>
    intro r n g
    rw [bwcBuild]
    by_cases hreg : r = w.dockerRegistry
    · simp only [if_pos hreg, pullCheck_dry w hdry]
      by_cases hdf : w.isFile (w.dockerfilePath n) = false
      · simp [hdf]
      · cases hargs : dockerfileDefaultArgs
            (w.manifest (w.dockerfilePath n)).argValues with
        | none => simp [hdf, hargs]
        | some dd =>
          cases hbp : buildParents (bwcBuild w f)
              (w.manifest (w.dockerfilePath n)).parentImages with
          | mk res trP =>
            have htrP : trP.filter isContactA = [] := by
              have h1 := buildParents_no_contacts (bwcBuild w f)
                (fun r' n' t' => ih r' n' t')
                (w.manifest (w.dockerfilePath n)).parentImages
              rw [hbp] at h1
              exact h1
            cases res with
            | error e => simp [hdf, hargs, hbp, htrP]
            | ok parentBytes =>
              simp [hdf, hargs, hbp, htrP, List.filter_append,
                contentPhase_dry w hdry, isContactA,
                finalPhase_no_contacts w hdry]
    · simp [hreg]

theorem bwcBuild_dry_reaches_build (w : World) (hdry : w.dryRun = true)
    (fuel : Nat) (r n g : String) (hreg : r = w.dockerRegistry)
    (hok : (bwcBuild w (fuel + 1) r n g).1 ≠ Except.error ()) :
    ∃ ht, Action.attempt (DockerCmd.build w.buildPath
        (w.dockerfilePath n) ((r ++ "/" ++ n) ++ ":" ++ ht)) ∈
      (bwcBuild w (fuel + 1) r n g).2 := by
  subst hreg
  rw [bwcBuild] at hok ⊢
  simp only [if_pos rfl, pullCheck_dry w hdry] at hok ⊢
  by_cases hdf : w.isFile (w.dockerfilePath n) = false
  · simp [hdf] at hok
  · cases hargs : dockerfileDefaultArgs
        (w.manifest (w.dockerfilePath n)).argValues with
    | none => simp [hdf, hargs] at hok
    | some dd =>
      cases hbp : buildParents (bwcBuild w fuel)
          (w.manifest (w.dockerfilePath n)).parentImages with
      | mk res trP =>
        cases res with
        | error e => simp [hdf, hargs, hbp] at hok
        | ok parentBytes =>
          refine ⟨"hash-" ++ imageDigest w parentBytes
            (parseDockerignoreAt w
              (w.buildContext n))
            (w.dockerfilePath n ::
              ((w.manifest (w.dockerfilePath n)).copiedSrcs ++
                (w.manifest (w.dockerfilePath n)).addedSrcs)), ?_⟩
          simp [hdf, hargs, hbp, contentPhase_dry w hdry]

/-- C6: in dry-run mode (a) every external command is short-circuited by
`_call` to exit status 0 with only the attempt recorded — no subprocess
is spawned and no registry mutation can fail; (b) both guarded
cache-existence pull checks behave as "not found"; (c) no `_build`
invocation, at any recursion depth, ever contacts the registry through a
subprocess; and (d) whenever `_build` runs to completion on the cache
registry without raising, it took the Building path: a `docker build`
attempt for the image's content tag occurs in the trace. -/
theorem c6_dry_run (w : World) (hdry : w.dryRun = true) :
    (∀ c, runDocker w c = (true, [Action.attempt c])) ∧
    (∀ ref, pullCheck w ref = (false, [])) ∧
    (∀ fuel r n g,
      (((bwcBuild w fuel r n g).2).filter isContactA) = []) ∧
    (∀ fuel r n g, r = w.dockerRegistry →
      (bwcBuild w (fuel + 1) r n g).1 ≠ Except.error () →
      ∃ ht, Action.attempt (DockerCmd.build w.buildPath
          (w.dockerfilePath n) ((r ++ "/" ++ n) ++ ":" ++ ht)) ∈
        (bwcBuild w (fuel + 1) r n g).2) :=
  ⟨runDocker_dry w hdry, pullCheck_dry w hdry,
    bwcBuild_no_contacts w hdry,
    fun fuel r n g hreg hok =>
      bwcBuild_dry_reaches_build w hdry fuel r n g hreg hok⟩

/-- Witness for C6: the dry-run world `wDry` with parentless image
`app`.  The build command is attempted, nothing is contacted, every
mutating call reports success. -/
theorem c6_witness :
    runDocker wDry (DockerCmd.push "x") =
      (true, [Action.attempt (DockerCmd.push "x")]) ∧
    pullCheck wDry "x" = (false, []) ∧
    (((bwcBuild wDry 1 "reg.example.com:5000" "app" "v1").2).filter
      isContactA) = [] ∧
    ∃ ht, Action.attempt (DockerCmd.build wDry.buildPath
        (wDry.dockerfilePath "app")
        (("reg.example.com:5000" ++ "/" ++ "app") ++ ":" ++ ht)) ∈
      (bwcBuild wDry 1 "reg.example.com:5000" "app" "v1").2 := by
  have h := c6_dry_run wDry rfl
  exact ⟨h.1 (DockerCmd.push "x"), h.2.1 "x",
    h.2.2.1 1 "reg.example.com:5000" "app" "v1",
    h.2.2.2 0 "reg.example.com:5000" "app" "v1" rfl (fun hcon => by
      rw [show (bwcBuild wDry (0 + 1) "reg.example.com:5000" "app" "v1").1 =
        Except.ok (some "sha256:dry") from rfl] at hcon
      exact Except.noConfusion hcon)⟩

/-! ### C2 — ignore-rule semantics (corrected) -/

/-- C2 counterexample: with files `b`, `!b`, `!!b` and rules
`["*", "!!*"]`, the file `!!b` lies in the glob expansion of the negated
rule's pattern (`!*`), so per the claim the negated rule should remove
it from the ignored set — but the source also globs the un-stripped line
`!!*` and re-adds its matches, so `!!b` stays ignored. -/
theorem c2_counterexample :
    "!!b" ∈ (pdGlob wBang "!*").toFinset ∧
    "!!b" ∈ parseDockerignoreLines wBang ["*", "!!*"] := by
  decide

/-- C2 amended: rules apply left to right; a non-negated, non-comment
rule adds (re-adds) its expansion to the accumulated set; a negated rule
removes its expansion except for files also matched by the un-stripped
line (including its leading `!`), which the source re-adds; on the
concrete examples: with rules `["build/", "!build/keep.txt"]` the file
`build/tmp.txt` is ignored (and hashes to nothing) while
`build/keep.txt` is not ignored (and is hashed); with
`["*.log", "*.log"]` both log files stay ignored and the duplicate rule
is an idempotent union. -/
theorem c2_ignore_semantics (w : World) (files : Finset String)
    (line : String)
    (hln : pyRstrip line = line)
    (h0 : pyStartsWith line "#" = false) :
    (pyStartsWith line "!" = false →
      igStep w files line = files ∪ (pdGlob w line).toFinset) ∧
    (pyStartsWith line "!" = true →
      ∀ x ∈ (pdGlob w (pyDropLeft line 1)).toFinset,
        x ∉ (pdGlob w line).toFinset → x ∉ igStep w files line) ∧
    ("build/tmp.txt" ∈
        parseDockerignoreLines wIgnore ["build/", "!build/keep.txt"] ∧
      "build/keep.txt" ∉
        parseDockerignoreLines wIgnore ["build/", "!build/keep.txt"] ∧
      updateFileHash wIgnore
        (parseDockerignoreLines wIgnore ["build/", "!build/keep.txt"])
        "build/tmp.txt" = [] ∧
      updateFileHash wIgnore
        (parseDockerignoreLines wIgnore ["build/", "!build/keep.txt"])
        "build/keep.txt" = [1, 2, 3]) ∧
    ("a.log" ∈ parseDockerignoreLines wLog ["*.log", "*.log"] ∧
      "b.log" ∈ parseDockerignoreLines wLog ["*.log", "*.log"] ∧
      parseDockerignoreLines wLog ["*.log", "*.log"] =
        parseDockerignoreLines wLog ["*.log"]) := by
  refine ⟨?_, ?_, by decide, by decide⟩
  · intro h2
    simp [igStep, hln, h0, h2]
  · intro h1 x hx hnx
    simp only [igStep, hln, h0, h1, Bool.false_eq_true, if_false, if_true]
    simp only [Finset.mem_union, Finset.mem_sdiff]
    intro hcon
    rcases hcon with ⟨-, hxe⟩ | hlit
    · exact hxe hx
    · exact hnx hlit

/-- Witness for C2: a non-negated rule re-adds its expansion; the
negated rule `!!*` does remove the file `!b` (which the un-stripped
line does not match); and the concrete two-rule examples hold. -/
theorem c2_witness :
    igStep w0 ∅ "src/a.txt" = ∅ ∪ (pdGlob w0 "src/a.txt").toFinset ∧
    "!b" ∉ igStep wBang ((pdGlob wBang "*").toFinset) "!!*" ∧
    "build/tmp.txt" ∈
      parseDockerignoreLines wIgnore ["build/", "!build/keep.txt"] ∧
    "build/keep.txt" ∉
      parseDockerignoreLines wIgnore ["build/", "!build/keep.txt"] := by
  have hAdd := c2_ignore_semantics w0 ∅ "src/a.txt" (by decide) (by decide)
  have hNeg := c2_ignore_semantics wBang ((pdGlob wBang "*").toFinset)
    "!!*" (by decide) (by decide)
  exact ⟨hAdd.1 (by decide),
    hNeg.2.1 (by decide) "!b" (by decide) (by decide),
    hNeg.2.2.1.1, hNeg.2.2.1.2.1⟩

/-! ### C1 — content digest is traversal-order independent -/

theorem sortStr_perm {l₁ l₂ : List String} (h : l₁.Perm l₂) :
    sortStr l₁ = sortStr l₂ := by
  unfold sortStr
  refine List.eq_of_perm_of_sorted ?_
    (List.sorted_insertionSort _ l₁) (List.sorted_insertionSort _ l₂)
  exact (List.perm_insertionSort _ l₁).trans
    (h.trans (List.perm_insertionSort _ l₂).symm)

theorem pdGlob_perm (w₁ w₂ : World) (hid : w₁.isDir = w₂.isDir)
    (hgr : ∀ p, (w₁.globRec p).Perm (w₂.globRec p)) (p : String) :
    (pdGlob w₁ p).Perm (pdGlob w₂ p) := by
  unfold pdGlob
  rw [← List.flatMap_def, ← List.flatMap_def]
  refine List.Perm.trans (List.Perm.flatMap_left _ (fun a _ => ?_))
    ((hgr p).flatMap_right _)
  by_cases hd : w₁.isDir a
  · rw [if_pos hd, if_pos (hid ▸ hd)]
    exact hgr _
  · rw [if_neg hd, if_neg (hid ▸ hd)]

theorem igStep_congr (w₁ w₂ : World) (hid : w₁.isDir = w₂.isDir)
    (hgr : ∀ p, (w₁.globRec p).Perm (w₂.globRec p)) :
    igStep w₁ = igStep w₂ := by
  have hPd : ∀ p, (pdGlob w₁ p).toFinset = (pdGlob w₂ p).toFinset :=
    fun p => List.toFinset_eq_of_perm _ _ (pdGlob_perm w₁ w₂ hid hgr p)
  funext files line
  unfold igStep
  simp only [hPd]

theorem parseDockerignoreAt_congr (w₁ w₂ : World)
    (hid : w₁.isDir = w₂.isDir)
    (hil : w₁.dockerignoreLines = w₂.dockerignoreLines)
    (hgr : ∀ p, (w₁.globRec p).Perm (w₂.globRec p)) (ctx : String) :
    parseDockerignoreAt w₁ ctx = parseDockerignoreAt w₂ ctx := by
  unfold parseDockerignoreAt parseDockerignoreLines
  rw [hil, igStep_congr w₁ w₂ hid hgr]

theorem updateFileHash_congr (w₁ w₂ : World)
    (hbs : w₁.blocksize = w₂.blocksize) (hif : w₁.isFile = w₂.isFile)
    (hct : w₁.content = w₂.content) (ig : Finset String) :
    updateFileHash w₁ ig = updateFileHash w₂ ig := by
  funext f
  unfold updateFileHash
  rw [hbs, hif, hct]

theorem filesStream_congr (w₁ w₂ : World)
    (hbs : w₁.blocksize = w₂.blocksize) (hif : w₁.isFile = w₂.isFile)
    (hid : w₁.isDir = w₂.isDir) (hct : w₁.content = w₂.content)
    (hg : ∀ p, (w₁.glob p).Perm (w₂.glob p))
    (hgr : ∀ p, (w₁.globRec p).Perm (w₂.globRec p))
    (ig : Finset String) (srcs : List String) :
    filesStream w₁ ig srcs = filesStream w₂ ig srcs := by
  have hUFH := updateFileHash_congr w₁ w₂ hbs hif hct ig
  have hfun : (fun f => if w₁.isDir f then
        ((sortStr (w₁.globRec (f ++ "/**"))).map
          (updateFileHash w₁ ig)).flatten
      else updateFileHash w₁ ig f) =
      (fun f => if w₂.isDir f then
        ((sortStr (w₂.globRec (f ++ "/**"))).map
          (updateFileHash w₂ ig)).flatten
      else updateFileHash w₂ ig f) := by
    funext f
    rw [hid, hUFH, sortStr_perm (hgr (f ++ "/**"))]
  have hsrc : expandSrc w₁ ig = expandSrc w₂ ig := by
    funext src
    unfold expandSrc
    rw [sortStr_perm (hg src), hfun]
  unfold filesStream
  rw [hsrc]

/-- C1: given a fixed manifest (source list), fixed parent digests and a
fixed filesystem snapshot, the content digest computed over the ordered
parent-digest bytes followed by the sorted, ignore-filtered source file
bytes is independent of the order in which the filesystem enumerates
glob matches: two glob oracles that return permutations of each other —
both for source expansion and for the ignore-file expansion — produce
the identical digest.  Recomputation with the same oracle is the same
pure function application, so computing the digest twice yields the
identical digest. -/
theorem c1_content_digest_deterministic (w₁ w₂ : World)
    (hbs : w₁.blocksize = w₂.blocksize)
    (hif : w₁.isFile = w₂.isFile)
    (hid : w₁.isDir = w₂.isDir)
    (hct : w₁.content = w₂.content)
    (hil : w₁.dockerignoreLines = w₂.dockerignoreLines)
    (hg : ∀ p, (w₁.glob p).Perm (w₂.glob p))
    (hgr : ∀ p, (w₁.globRec p).Perm (w₂.globRec p))
    (parentDigests : List String) (ctx : String) (srcs : List String) :
    imageDigest w₁ ((parentDigests.map strBytes).flatten)
      (parseDockerignoreAt w₁ ctx) srcs =
    imageDigest w₂ ((parentDigests.map strBytes).flatten)
      (parseDockerignoreAt w₂ ctx) srcs := by
  unfold imageDigest
  rw [parseDockerignoreAt_congr w₁ w₂ hid hil hgr ctx,
    filesStream_congr w₁ w₂ hbs hif hid hct hg hgr
      (parseDockerignoreAt w₂ ctx) srcs]

/-- Witness for C1: the same two-file snapshot enumerated in opposite
orders by the glob oracle yields the identical digest. -/
theorem c1_witness :
    imageDigest wPermA ((["d1"].map strBytes).flatten)
      (parseDockerignoreAt wPermA ".") ["*"] =
    imageDigest wPermB ((["d1"].map strBytes).flatten)
      (parseDockerignoreAt wPermB ".") ["*"] :=
  c1_content_digest_deterministic wPermA wPermB rfl rfl rfl rfl rfl
    (fun p => by
      by_cases hp : p = "*"
      · simp only [wPermA, wPermB, w0, hp]
        decide
      · simp [wPermA, wPermB, w0, hp])
    (fun p => by simp [wPermA, wPermB, w0])
    ["d1"] "." ["*"]

end ImageBuilder
